import Mathlib

/-!
# Verification of the l-xor-go sales-chat backend core

Shallow embedding, in Lean 4, of the turn-orchestration pipeline of the
`l-xor-go` repository, together with its escalation state machine
(`maybeEscalate` and helpers), the per-session Telegram message debouncer
(`telegramBuffer`), the retrieval fallback chain
(`handleMessage` / `searchProductsHybrid` / `searchProductsByArticles`),
the personalization ranker (`RankProductsByBehavior`) and the quote
assembler (`generateQuotePDF`).

Modelling conventions:
* Go `time.Time` values are modelled as `Nat` ticks (seconds); the zero
  `time.Time` is `0`, `After` is `>`, `Before` is `<`, `IsZero` is `= 0`.
  Timestamp *strings* (RFC3339 fields such as `manager_notified_at`)
  are modelled as `Option Nat`: `none` is the empty string `""`,
  `some t` is a non-empty string that `parseTime` parses to tick `t`
  (`t = 0` when both parse attempts fail, matching Go's zero time).
* External collaborators (Supabase RPCs, the Telegram HTTP API, OpenAI)
  are parameters of the embedded functions: each embedded function takes
  the collaborator's response (an `Except`, or a success `Bool` for a
  fire-and-forget send) as an argument and is otherwise a faithful
  translation of the Go control flow.
* Go `map[string]interface{}` metadata is modelled as an association
  list `List (String × MetaVal)`; a `nil` map and an empty map are
  indistinguishable to readers in the translated code paths, so both
  are `[]`.  JSON numbers (Go `float64`) that the claims touch are
  integral prices; they are modelled as `Int`.
* Go string helpers (`strings.TrimSpace`, `strings.ToLower`,
  `strings.ToUpper`, `strings.Contains`, `strings.Join`,
  `strings.Index`, `strconv.ParseFloat`) are given explicit structural
  definitions over the string's character list (`go…` below), so that
  every embedded function evaluates inside the kernel.  Case mapping
  covers ASCII and the Cyrillic block actually used by the program's
  fixed phrase lists; `ParseFloat` is modelled for plain decimal
  literals (the only shapes price metadata takes).
-/

set_option maxHeartbeats 1000000

namespace LxorGo

/-! ## Go string primitives -/

/-- Whitespace for `strings.TrimSpace` (space, tab, newline, carriage
return, vertical tab, form feed). -/
def goIsSpace (c : Char) : Bool :=
  c = ' ' || c = '\t' || c = '\n' || c = '\r' || c = Char.ofNat 11 || c = Char.ofNat 12

/-- `strings.TrimSpace`. -/
def goTrim (s : String) : String :=
  ⟨((s.data.dropWhile goIsSpace).reverse.dropWhile goIsSpace).reverse⟩

/-- Unicode `toLower` on the ASCII and Russian Cyrillic ranges. -/
def goCharToLower (c : Char) : Char :=
  let n := c.toNat
  if 65 ≤ n ∧ n ≤ 90 then Char.ofNat (n + 32)
  else if 1040 ≤ n ∧ n ≤ 1071 then Char.ofNat (n + 32)
  else if n = 1025 then Char.ofNat 1105
  else c

/-- Unicode `toUpper` on the ASCII and Russian Cyrillic ranges. -/
def goCharToUpper (c : Char) : Char :=
  let n := c.toNat
  if 97 ≤ n ∧ n ≤ 122 then Char.ofNat (n - 32)
  else if 1072 ≤ n ∧ n ≤ 1103 then Char.ofNat (n - 32)
  else if n = 1105 then Char.ofNat 1025
  else c

/-- `strings.ToLower`. -/
def goToLower (s : String) : String := ⟨s.data.map goCharToLower⟩

/-- `strings.ToUpper`. -/
def goToUpper (s : String) : String := ⟨s.data.map goCharToUpper⟩

/-- Does `hay` start with `needle`? -/
def charsStartWith : List Char → List Char → Bool
  | [], _ => true
  | _ :: _, [] => false
  | a :: as, b :: bs => a = b && charsStartWith as bs

/-- Does `hay` contain `needle` as a contiguous run? -/
def charsContain : List Char → List Char → Bool
  | needle, [] => needle.isEmpty
  | needle, c :: rest => charsStartWith needle (c :: rest) || charsContain needle rest

/-- Go `strings.Contains s sub` (an empty needle is always contained). -/
def goContains (s sub : String) : Bool :=
  charsContain sub.data s.data

/-- Go `strings.Index s sub`, as a character index (`none` for absent). -/
def charsIndexOf (needle : List Char) (hay : List Char) : Option Nat :=
  if charsStartWith needle hay then some 0
  else
    match hay with
    | [] => none
    | _ :: t => (charsIndexOf needle t).map (· + 1)

/-- Go `strings.Join parts sep`. -/
def goJoin (sep : String) : List String → String
  | [] => ""
  | [x] => x
  | x :: xs => x ++ sep ++ goJoin sep xs

/-! ## Match-count clamping (handleMessage, service.go)

```go
matchCount := req.MatchCount
if matchCount <= 0 { matchCount = 5 }
if matchCount > 20 { matchCount = 20 }
```
-/

/-- The effective match count derived from `req.MatchCount` in `handleMessage`. -/
def effectiveMatchCount (requested : Int) : Int :=
  let m := if requested ≤ 0 then 5 else requested
  if m > 20 then 20 else m

/-! ## Escalation state machine (escalation.go)

`maybeEscalate` runs at the end of a turn: it loads the latest persisted
escalation state from history, resets it when a human admin has replied
after the last manager notification, recomputes the clarify streak, and
performs the `Idle → ManagerNotified` and `ManagerNotified →
DirectorNotified` transitions, each guarded by a Telegram send whose
success is required before the corresponding timestamp is recorded.
The asynchronous `scheduleDirectorEscalation` timer only re-reads state
and sends; it never writes state, so it is outside this state model. -/

/-- `escalationState` (JSON metadata snapshot).  Timestamp strings are
`Option Nat` as described in the module docstring. -/
structure EscState where
  managerNotifiedAt : Option Nat
  directorNotifiedAt : Option Nat
  lastReason : String
  lastClarifyCount : Nat
deriving Repr, DecidableEq

/-- The zero value `escalationState{}` (all fields empty). -/
def EscState.emptyState : EscState := ⟨none, none, "", 0⟩

/-- `parseTime` applied to a stored timestamp string: the empty string and
unparseable strings give Go's zero time (`0`). -/
def parseTimeOpt : Option Nat → Nat
  | none => 0
  | some t => t

/-- `escalationTrigger` configuration. -/
structure EscTrigger where
  maxConsecutiveClarifyQuestions : Int
  negativeKeywords : List String
deriving Repr, DecidableEq

/-- `escalationRule` configuration (manager trigger/template, director
timeout/template). -/
structure EscRule where
  managerTrigger : EscTrigger
  managerMessage : String
  directorTimeoutMinutes : Int
  directorMessage : String
deriving Repr, DecidableEq

/-- One row of `chat_messages` as read by the escalation helpers:
`role`, `content`, `sender_type`, the parsed `created_at` tick
(0 when empty or unparseable) and the decoded `meta_data["escalation"]`
snapshot (`none` when the key is absent or fails to decode). -/
structure ChatMessageRow where
  role : String
  content : String
  senderType : String
  createdAt : Nat
  escalationMeta : Option EscState
deriving Repr, DecidableEq

/-- `latestEscalationState`: walk history from the newest row and return
the first decodable escalation snapshot. -/
def latestEscalationState (history : List ChatMessageRow) : Option EscState :=
  history.reverse.findSome? (·.escalationMeta)

/-- `lastHumanAdminReply`: newest row whose trimmed, lower-cased
`sender_type` is `human_admin` *and* whose `created_at` parses to a
non-zero time; rows failing either test are skipped.  Returns Go's zero
time (`0`) when none qualifies. -/
def lastHumanAdminReply (history : List ChatMessageRow) : Nat :=
  match history.reverse.find?
      (fun r => decide (goToLower (goTrim r.senderType) = "human_admin") && decide (0 < r.createdAt)) with
  | some r => r.createdAt
  | none => 0

/-- The fixed Russian interrogative stems of `isClarifyQuestion`. -/
def clarifyKeywords : List String :=
  ["уточните", "какой", "что именно", "какая", "какие", "какого"]

/-- `isClarifyQuestion`: contains "?" and one of the clarify stems
(lower-cased containment). -/
def isClarifyQuestion (text : String) : Bool :=
  if !goContains text "?" then false
  else clarifyKeywords.any (fun k => goContains (goToLower text) k)

/-- The trailing scan of `countConsecutiveClarify`: walk rows newest-first
(the argument is the reversed history), skip non-assistant rows, count
consecutive clarifying assistant replies, stop at the first
non-clarifying assistant reply. -/
def countTrailingClarify : List ChatMessageRow → Nat
  | [] => 0
  | r :: rest =>
    if r.role ≠ "assistant" then countTrailingClarify rest
    else if isClarifyQuestion r.content then 1 + countTrailingClarify rest
    else 0

/-- `countConsecutiveClarify`: 0 unless the current answer itself
clarifies; otherwise 1 plus the trailing streak in history. -/
def countConsecutiveClarify (history : List ChatMessageRow) (currentAnswer : String) : Nat :=
  if isClarifyQuestion currentAnswer then 1 + countTrailingClarify history.reverse
  else 0

/-- `shouldTriggerManager`: clarify-streak threshold first, then the
negative-keyword scan (trimmed, lower-cased, empty keywords skipped). -/
def shouldTriggerManager (userMessage : String) (clarifyCount : Nat) (trigger : EscTrigger) :
    Bool × String :=
  if trigger.maxConsecutiveClarifyQuestions > 0 ∧
      (clarifyCount : Int) ≥ trigger.maxConsecutiveClarifyQuestions then
    (true, "clarify_count")
  else if trigger.negativeKeywords.any
      (fun kw => !decide (goToLower (goTrim kw) = "")
        && goContains (goToLower userMessage) (goToLower (goTrim kw))) then
    (true, "negative_keyword")
  else (false, "")

/-- The reset block of `maybeEscalate`:

```go
if state.ManagerNotifiedAt != "" && lastManagerReply.After(parseTime(state.ManagerNotifiedAt)) {
    state.ManagerNotifiedAt = ""; state.DirectorNotifiedAt = ""
    state.LastReason = ""; state.LastClarifyCount = 0
}
```
-/
def resetOnHumanReply (lastReply : Nat) (st : EscState) : EscState :=
  if st.managerNotifiedAt ≠ none ∧ parseTimeOpt st.managerNotifiedAt < lastReply then
    EscState.emptyState
  else st

/-- The state `maybeEscalate` works on after loading history and applying
the human-admin reset (lines 83–94 of escalation.go). -/
def loadedEscState (history : List ChatMessageRow) : EscState :=
  resetOnHumanReply (lastHumanAdminReply history)
    ((latestEscalationState history).getD EscState.emptyState)

/-- Environment of one `maybeEscalate` call: the parsed manager/director
chat ids (`parseChatID` result, `none` when unset or unparseable), the
current wall-clock tick, and the outcome each Telegram send would have
(`true` = HTTP 200). -/
structure EscEnv where
  managerChatID : Option Int
  directorChatID : Option Int
  now : Nat
  managerSendOK : Bool
  directorSendOK : Bool
deriving Repr, DecidableEq

/-- Result of a `maybeEscalate` call: the state it returns (to be stored
in the assistant message metadata; `none` when the call bails out before
loading state) and whether a manager / director notification send was
attempted. -/
structure EscOutcome where
  state : Option EscState
  managerSendAttempted : Bool
  directorSendAttempted : Bool
deriving Repr, DecidableEq

/-- Manager branch of `maybeEscalate` (lines 99–110): attempt the send
only when triggered and no manager notification is recorded; record the
timestamp and reason only when the send succeeds. -/
def managerStep (env : EscEnv) (userMessage : String) (clarifyCount : Nat) (rule : EscRule)
    (st : EscState) : EscState × Bool :=
  let trig := shouldTriggerManager userMessage clarifyCount rule.managerTrigger
  if trig.1 ∧ st.managerNotifiedAt = none then
    if env.managerSendOK then
      ({ st with managerNotifiedAt := some env.now, lastReason := trig.2 }, true)
    else (st, true)
  else (st, false)

/-- Director branch of `maybeEscalate` (lines 112–128): requires a
recorded manager notification, no director notification, a positive
timeout, a valid director chat id, an elapsed timeout, and no human
admin reply since the manager notification; records the timestamp only
when the send succeeds.  The timeout comparison models
`time.Since(managerAt) >= timeoutMinutes * time.Minute` in seconds. -/
def directorStep (env : EscEnv) (lastReply : Nat) (rule : EscRule) (st : EscState) :
    EscState × Bool :=
  if st.managerNotifiedAt ≠ none ∧ st.directorNotifiedAt = none ∧
      rule.directorTimeoutMinutes > 0 then
    match env.directorChatID with
    | some dirID =>
      if dirID ≠ 0 then
        let managerAt := parseTimeOpt st.managerNotifiedAt
        if managerAt ≠ 0 ∧ (env.now : Int) - managerAt ≥ rule.directorTimeoutMinutes * 60 then
          if lastReply = 0 ∨ lastReply < managerAt then
            if env.directorSendOK then
              ({ st with directorNotifiedAt := some env.now }, true)
            else (st, true)
          else (st, false)
        else (st, false)
      else (st, false)
    | none => (st, false)
  else (st, false)

/-- `maybeEscalate` (escalation.go lines 74–131), with the collaborator
responses supplied through `env`.  The rendered message texts do not
influence state and are omitted. -/
def maybeEscalate (env : EscEnv) (userMessage answer : String)
    (history : List ChatMessageRow) (rule? : Option EscRule) : EscOutcome :=
  match rule? with
  | none => ⟨none, false, false⟩
  | some rule =>
    match env.managerChatID with
    | none => ⟨none, false, false⟩
    | some chatID =>
      if chatID = 0 then ⟨none, false, false⟩
      else
        let lastReply := lastHumanAdminReply history
        let clarify := countConsecutiveClarify history answer
        let state2 := { loadedEscState history with lastClarifyCount := clarify }
        let mgr := managerStep env userMessage clarify rule state2
        let dir := directorStep env lastReply rule mgr.1
        ⟨some dir.1, mgr.2, dir.2⟩

/-- The manager branch never touches the director timestamp. -/
theorem managerStep_directorNotifiedAt (env : EscEnv) (u : String) (c : Nat) (rule : EscRule)
    (st : EscState) : ((managerStep env u c rule st).1).directorNotifiedAt = st.directorNotifiedAt := by
  unfold managerStep
  dsimp only
  repeat' split
  all_goals rfl

/-- When the manager send fails, the manager branch leaves the state unchanged. -/
theorem managerStep_state_of_send_failed (env : EscEnv) (u : String) (c : Nat) (rule : EscRule)
    (st : EscState) (h : env.managerSendOK = false) : (managerStep env u c rule st).1 = st := by
  unfold managerStep
  dsimp only
  repeat' split
  all_goals first | rfl | simp_all

/-- The director branch never touches the manager timestamp. -/
theorem directorStep_managerNotifiedAt (env : EscEnv) (lr : Nat) (rule : EscRule) (st : EscState) :
    ((directorStep env lr rule st).1).managerNotifiedAt = st.managerNotifiedAt := by
  unfold directorStep
  dsimp only
  repeat' split
  all_goals rfl

/-- When the director send fails, the director branch leaves the state unchanged. -/
theorem directorStep_state_of_send_failed (env : EscEnv) (lr : Nat) (rule : EscRule)
    (st : EscState) (h : env.directorSendOK = false) : (directorStep env lr rule st).1 = st := by
  unfold directorStep
  dsimp only
  repeat' split
  all_goals first | rfl | simp_all

/-- **C1.** Once the latest persisted escalation state carries a non-empty
manager-notified timestamp, `maybeEscalate` attempts no second manager
notification as long as no human-admin-authored message with a later
timestamp appears in history; and such a later human-admin message makes
the reset block clear the escalation state back to the empty (`Idle`)
snapshot. -/
theorem c1_manager_notified_at_most_once (env : EscEnv) (userMessage answer : String)
    (history : List ChatMessageRow) (rule? : Option EscRule) (st : EscState) (t : Nat)
    (hstate : latestEscalationState history = some st)
    (hmgr : st.managerNotifiedAt = some t) :
    (lastHumanAdminReply history ≤ t →
      (maybeEscalate env userMessage answer history rule?).managerSendAttempted = false)
    ∧ (t < lastHumanAdminReply history →
      resetOnHumanReply (lastHumanAdminReply history) st = EscState.emptyState) := by
  constructor
  · intro hle
    have hload : loadedEscState history = st := by
      unfold loadedEscState resetOnHumanReply
      rw [hstate, Option.getD_some, hmgr]
      simp only [parseTimeOpt]
      rw [if_neg]
      rintro ⟨-, hlt⟩
      omega
    unfold maybeEscalate
    cases rule? with
    | none => rfl
    | some rule =>
      cases env.managerChatID with
      | none => rfl
      | some chatID =>
        by_cases h0 : chatID = 0
        · simp [h0]
        · simp only [if_neg h0]
          simp [managerStep, hload, hmgr]
  · intro hlt
    unfold resetOnHumanReply
    rw [if_pos]
    exact ⟨by simp [hmgr], by simp [hmgr, parseTimeOpt, hlt]⟩

/-- Witness for C1 at a concrete input: manager already notified at tick
100, no human-admin reply since, so the call attempts no manager send. -/
def escHistC1 : List ChatMessageRow :=
  [⟨"user", "хочу розетку", "user", 50, none⟩,
   ⟨"assistant", "Какой цвет нужен?", "", 60, some ⟨some 100, none, "clarify_count", 3⟩⟩]

theorem c1_witness :
    (maybeEscalate ⟨some 1, some 2, 500, true, true⟩ "какая разница" "Какой тип нужен?"
      escHistC1 (some ⟨⟨1, ["плохо"]⟩, "m", 30, "d"⟩)).managerSendAttempted = false :=
  (c1_manager_notified_at_most_once ⟨some 1, some 2, 500, true, true⟩ "какая разница"
    "Какой тип нужен?" escHistC1 (some ⟨⟨1, ["плохо"]⟩, "m", 30, "d"⟩)
    ⟨some 100, none, "clarify_count", 3⟩ 100 (by decide) (by decide)).1 (by decide)

/-- **C4.** A failed notification send never advances escalation state:
whenever the manager (resp. director) send fails, the state returned by
`maybeEscalate` carries the same manager-notified (resp.
director-notified) timestamp as the state loaded from history, so a
later turn can retry the notification. -/
theorem c4_failed_send_state_unchanged (env : EscEnv) (userMessage answer : String)
    (history : List ChatMessageRow) (rule? : Option EscRule) :
    (env.managerSendOK = false →
      ∀ st', (maybeEscalate env userMessage answer history rule?).state = some st' →
        st'.managerNotifiedAt = (loadedEscState history).managerNotifiedAt)
    ∧ (env.directorSendOK = false →
      ∀ st', (maybeEscalate env userMessage answer history rule?).state = some st' →
        st'.directorNotifiedAt = (loadedEscState history).directorNotifiedAt) := by
  obtain ⟨mcid, dcid, now, mok, dok⟩ := env
  constructor
  · intro hfail st' hst
    cases rule? with
    | none => simp [maybeEscalate] at hst
    | some rule =>
      cases mcid with
      | none => simp [maybeEscalate] at hst
      | some chatID =>
        by_cases h0 : chatID = 0
        · simp [maybeEscalate, h0] at hst
        · simp only [maybeEscalate, if_neg h0, Option.some.injEq] at hst
          subst hst
          rw [directorStep_managerNotifiedAt, managerStep_state_of_send_failed _ _ _ _ _ hfail]
  · intro hfail st' hst
    cases rule? with
    | none => simp [maybeEscalate] at hst
    | some rule =>
      cases mcid with
      | none => simp [maybeEscalate] at hst
      | some chatID =>
        by_cases h0 : chatID = 0
        · simp [maybeEscalate, h0] at hst
        · simp only [maybeEscalate, if_neg h0, Option.some.injEq] at hst
          subst hst
          rw [directorStep_state_of_send_failed _ _ _ _ hfail,
            managerStep_directorNotifiedAt]

/-- Witness for C4 at a concrete input: the negative keyword triggers a
manager notification whose send fails; the returned state still has an
empty manager-notified timestamp. -/
def escHistC4 : List ChatMessageRow :=
  [⟨"user", "хочу розетку", "user", 50, none⟩]

theorem c4_witness :
    (maybeEscalate ⟨some 1, some 2, 500, false, false⟩ "все плохо" "ответ" escHistC4
        (some ⟨⟨3, ["плохо"]⟩, "m", 30, "d"⟩)).state
      = some ⟨none, none, "", 0⟩
    ∧ (⟨none, none, "", 0⟩ : EscState).managerNotifiedAt
      = (loadedEscState escHistC4).managerNotifiedAt :=
  ⟨by decide,
   (c4_failed_send_state_unchanged ⟨some 1, some 2, 500, false, false⟩ "все плохо" "ответ"
     escHistC4 (some ⟨⟨3, ["плохо"]⟩, "m", 30, "d"⟩)).1 rfl ⟨none, none, "", 0⟩ (by decide)⟩

/-! ## Telegram message debouncer (telegram.go)

`telegramBuffer` keeps one `telegramSessionBuffer` per session under a
mutex.  The idle timer handle (`*time.Timer`, re-armed by
`resetTimerLocked`, stopped by `detachLocked`) is modelled by a
generation number: each arming uses a fresh generation, and a timer
firing has an effect only when the session's buffer still carries that
generation — which is exactly the sequential semantics of
`Timer.Stop`/`AfterFunc` under the registry mutex.  Each operation
returns the new registry state together with the pending buffer passed
to `onFlush` (if any); the state returned is the state the registry is
in *before* the callback runs, since the Go code releases the lock (and
has already cleared the session's entry) before invoking `onFlush`. -/

/-- `telegramPendingMedia` (downloaded payload). -/
structure TgMedia where
  messageType : String
  filename : String
  contentType : String
  payload : List Nat
deriving Repr, DecidableEq

/-- `telegramPending`. -/
structure TgPending where
  sessionID : String
  userID : String
  texts : List String
  media : Option TgMedia
deriving Repr, DecidableEq

/-- The zero value `telegramPending{}`. -/
def TgPending.emptyPending : TgPending := ⟨"", "", [], none⟩

/-- `telegramSessionBuffer`: the pending accumulation, the armed timer's
generation (`none` when no timer is armed) and the buffer start time. -/
structure TgSessionBuf where
  pending : TgPending
  timerGen : Option Nat
  started : Nat
deriving Repr, DecidableEq

/-- `telegramBuffer`: the per-session registry plus the next fresh timer
generation. -/
structure TgBufState where
  sessions : List (String × TgSessionBuf)
  nextGen : Nat
deriving Repr, DecidableEq

/-- `newTelegramBuffer()`. -/
def emptyTgState : TgBufState := ⟨[], 0⟩

/-- `telegramIdleWindow = 6 * time.Second` in nanoseconds. -/
def telegramIdleWindow : Nat := 6000000000

/-- `telegramMaxWait = 30 * time.Second` in nanoseconds. -/
def telegramMaxWait : Nat := 30000000000

/-- Go map read `b.sessions[sessionID]`. -/
def getSession (sessions : List (String × TgSessionBuf)) (sid : String) : Option TgSessionBuf :=
  (sessions.find? (fun p => decide (p.1 = sid))).map (·.2)

/-- Go map delete `delete(b.sessions, sessionID)`. -/
def delSession (sessions : List (String × TgSessionBuf)) (sid : String) :
    List (String × TgSessionBuf) :=
  sessions.filter (fun p => !decide (p.1 = sid))

/-- Go map write `b.sessions[sessionID] = buf`. -/
def setSession (sessions : List (String × TgSessionBuf)) (sid : String) (buf : TgSessionBuf) :
    List (String × TgSessionBuf) :=
  (sid, buf) :: delSession sessions sid

/-- A fresh `&telegramSessionBuffer{pending: telegramPending{sessionID, userID}, started: time.Now()}`. -/
def freshBuf (sid uid : String) (now : Nat) : TgSessionBuf :=
  ⟨⟨sid, uid, [], none⟩, none, now⟩

/-- The user-id backfill `if buf.pending.userID == "" { buf.pending.userID = userID }`. -/
def backfillUserID (uid : String) (buf : TgSessionBuf) : TgSessionBuf :=
  if buf.pending.userID = "" then { buf with pending := { buf.pending with userID := uid } }
  else buf

/-- `detachLocked`: remove the session's entry (stopping its timer) and
hand back its pending accumulation; the zero pending when absent. -/
def detachLocked (st : TgBufState) (sid : String) : TgBufState × TgPending :=
  match getSession st.sessions sid with
  | none => (st, TgPending.emptyPending)
  | some buf => ({ st with sessions := delSession st.sessions sid }, buf.pending)

/-- `resetTimerLocked`: stop any previous timer and arm a fresh one with
the idle-window delay (the delay itself lives in the event order; the
armed handle is the fresh generation). -/
def resetTimerLocked (st : TgBufState) (sid : String) (buf : TgSessionBuf) : TgBufState :=
  ⟨setSession st.sessions sid { buf with timerGen := some st.nextGen }, st.nextGen + 1⟩

/-- `AddText` (telegram.go lines 637–659).  Returns the new state and the
pending buffer passed to `onFlush` when the max-wait cap fires. -/
def addText (st : TgBufState) (now : Nat) (sid uid text : String) :
    TgBufState × Option TgPending :=
  let buf0 := (getSession st.sessions sid).getD (freshBuf sid uid now)
  let buf1 := backfillUserID uid buf0
  let buf2 := { buf1 with pending := { buf1.pending with texts := buf1.pending.texts ++ [text] } }
  let st2 : TgBufState := { st with sessions := setSession st.sessions sid buf2 }
  if telegramMaxWait ≤ now - buf2.started then
    let det := detachLocked st2 sid
    (det.1, some det.2)
  else
    (resetTimerLocked st2 sid buf2, none)

/-- `AddMedia` (telegram.go lines 661–701), mirroring the Go statement
order: detach an existing buffer that already holds media, re-create the
session's buffer if needed, queue the new media, then either cap-flush
or re-arm; the `pending` local is delivered to `onFlush` only when its
session id is non-empty. -/
def addMedia (st : TgBufState) (now : Nat) (sid uid : String) (media : TgMedia) :
    TgBufState × Option TgPending :=
  let buf0 := (getSession st.sessions sid).getD (freshBuf sid uid now)
  let buf1 := backfillUserID uid buf0
  let st1 : TgBufState := { st with sessions := setSession st.sessions sid buf1 }
  let detached :=
    if buf1.pending.media ≠ none then detachLocked st1 sid else (st1, TgPending.emptyPending)
  let st2 := detached.1
  let pending1 := detached.2
  let buf2 := (getSession st2.sessions sid).getD (freshBuf sid uid now)
  let buf3 := { buf2 with pending := { buf2.pending with media := some media } }
  let st3 : TgBufState := { st2 with sessions := setSession st2.sessions sid buf3 }
  if telegramMaxWait ≤ now - buf3.started then
    let det := detachLocked st3 sid
    (det.1, if det.2.sessionID ≠ "" then some det.2 else none)
  else
    (resetTimerLocked st3 sid buf3, if pending1.sessionID ≠ "" then some pending1 else none)

/-- The `time.AfterFunc` callback of the timer armed with generation `g`
for session `sid`: it calls `b.flush(sid, onFlush)`, which detaches and
dispatches only a non-empty-session pending.  A timer whose generation
no longer matches the session's armed generation was stopped (by
`resetTimerLocked` or `detachLocked`) and has no effect. -/
def timerFire (st : TgBufState) (sid : String) (g : Nat) : TgBufState × Option TgPending :=
  match getSession st.sessions sid with
  | some buf =>
    if buf.timerGen = some g then
      ({ st with sessions := delSession st.sessions sid },
        if buf.pending.sessionID ≠ "" then some buf.pending else none)
    else (st, none)
  | none => (st, none)

/-- What `processTelegramPending` dispatches for a flushed buffer. -/
inductive TgDispatch where
  | textTurn (text : String)
  | mediaTurn (media : TgMedia) (extraText : String)
deriving Repr, DecidableEq

/-- `processTelegramPending` (telegram.go lines 241–254): a media turn
carries the newline-joined, trimmed texts as extra text; a text turn is
dispatched only when the joined, trimmed text is non-empty. -/
def processTelegramPending (p : TgPending) : Option TgDispatch :=
  match p.media with
  | some m => some (TgDispatch.mediaTurn m (goTrim (goJoin "\n" p.texts)))
  | none =>
    if p.texts ≠ [] then
      let combined := goTrim (goJoin "\n" p.texts)
      if combined ≠ "" then some (TgDispatch.textTurn combined) else none
    else none

/-- Looking a key up after writing it. -/
theorem getSession_setSession_same (l : List (String × TgSessionBuf)) (sid : String)
    (buf : TgSessionBuf) : getSession (setSession l sid buf) sid = some buf := by
  simp [getSession, setSession, List.find?]

/-- Looking a key up after deleting it. -/
theorem getSession_delSession_same (l : List (String × TgSessionBuf)) (sid : String) :
    getSession (delSession l sid) sid = none := by
  induction l with
  | nil => rfl
  | cons hd tl ih =>
    by_cases h : hd.1 = sid
    · simpa [delSession, List.filter_cons, h] using ih
    · simp only [getSession, delSession, List.filter_cons, List.find?] at ih ⊢
      simp [h, ih]

theorem telegramMaxWait_ne_zero : telegramMaxWait ≠ 0 := by decide

/-- Backfilling the creator's own user id is a no-op. -/
theorem backfillUserID_self (sid uid : String) (ts : List String) (m : Option TgMedia)
    (g : Option Nat) (st : Nat) :
    backfillUserID uid ⟨⟨sid, uid, ts, m⟩, g, st⟩ = ⟨⟨sid, uid, ts, m⟩, g, st⟩ := by
  unfold backfillUserID
  split <;> simp_all

/-- **C2.** Starting from an empty registry, two `AddText` calls for the
same session whose second call arrives while the buffer's age is still
below the max-wait cap cause no immediate flush; the armed idle timer
then flushes exactly once, delivering both texts in arrival order, and
the flush callback dispatches the newline-joined, trimmed text.  No
other timer generation, and no second firing, produces a flush. -/
theorem c2_debounce_two_texts_one_flush (sid uid x1 x2 : String) (t1 t2 : Nat)
    (hsid : sid ≠ "") (hcap : t2 - t1 < telegramMaxWait) :
    (addText emptyTgState t1 sid uid x1).2 = none
    ∧ (addText (addText emptyTgState t1 sid uid x1).1 t2 sid uid x2).2 = none
    ∧ (timerFire (addText (addText emptyTgState t1 sid uid x1).1 t2 sid uid x2).1 sid 1).2
        = some ⟨sid, uid, [x1, x2], none⟩
    ∧ processTelegramPending ⟨sid, uid, [x1, x2], none⟩
        = (if goTrim (x1 ++ "\n" ++ x2) ≠ "" then
            some (TgDispatch.textTurn (goTrim (x1 ++ "\n" ++ x2))) else none)
    ∧ (∀ g, g ≠ 1 →
        (timerFire (addText (addText emptyTgState t1 sid uid x1).1 t2 sid uid x2).1 sid g).2 = none)
    ∧ (∀ g,
        (timerFire
          (timerFire (addText (addText emptyTgState t1 sid uid x1).1 t2 sid uid x2).1 sid 1).1
          sid g).2 = none) := by
  have hnocap1 : ¬ (telegramMaxWait ≤ t1 - t1) := by
    unfold telegramMaxWait
    omega
  have hnocap2 : ¬ (telegramMaxWait ≤ t2 - t1) := by omega
  have hstep1 : addText emptyTgState t1 sid uid x1
      = (⟨[(sid, ⟨⟨sid, uid, [x1], none⟩, some 0, t1⟩)], 1⟩, none) := by
    unfold addText
    simp [emptyTgState, getSession, freshBuf, backfillUserID_self, hnocap1,
      resetTimerLocked, setSession, delSession, telegramMaxWait_ne_zero]
  have hstep2 : addText (addText emptyTgState t1 sid uid x1).1 t2 sid uid x2
      = (⟨[(sid, ⟨⟨sid, uid, [x1, x2], none⟩, some 1, t1⟩)], 2⟩, none) := by
    rw [hstep1]
    unfold addText
    simp [getSession, List.find?, backfillUserID_self, hnocap2,
      resetTimerLocked, setSession, delSession]
  refine ⟨by rw [hstep1], by rw [hstep2], ?_, ?_, ?_, ?_⟩
  · rw [hstep2]
    simp [timerFire, getSession, List.find?, hsid]
  · rfl
  · intro g hg
    rw [hstep2]
    simp [timerFire, getSession, List.find?, Ne.symm hg]
  · intro g
    rw [hstep2]
    simp [timerFire, getSession, List.find?, hsid, delSession]

/-- Witness for C2 at a concrete input. -/
theorem c2_witness :
    (addText emptyTgState 1000 "tg:7" "42" "привет").2 = none
    ∧ (addText (addText emptyTgState 1000 "tg:7" "42" "привет").1 2000 "tg:7" "42" "и ещё").2 = none
    ∧ (timerFire (addText (addText emptyTgState 1000 "tg:7" "42" "привет").1 2000 "tg:7" "42"
        "и ещё").1 "tg:7" 1).2 = some ⟨"tg:7", "42", ["привет", "и ещё"], none⟩
    ∧ processTelegramPending ⟨"tg:7", "42", ["привет", "и ещё"], none⟩
        = (if goTrim ("привет" ++ "\n" ++ "и ещё") ≠ "" then
            some (TgDispatch.textTurn (goTrim ("привет" ++ "\n" ++ "и ещё"))) else none) := by
  obtain ⟨h1, h2, h3, h4, -, -⟩ :=
    c2_debounce_two_texts_one_flush "tg:7" "42" "привет" "и ещё" 1000 2000 (by decide) (by decide)
  exact ⟨h1, h2, h3, h4⟩

/-- **C3.** When `AddMedia` finds a media item already pending, the
existing buffer — its texts and its single media item, with the user-id
backfill applied — is detached and handed to `onFlush` as its own
dispatch; the session is re-created as a fresh buffer holding only the
new media (no texts, started now, idle timer re-armed); and the old
buffer's timer generation can no longer produce a flush, the entry
having been removed and the timer stopped before the callback runs. -/
theorem c3_addMedia_flushes_existing_media (st0 : TgBufState) (now : Nat) (sid uid : String)
    (m0 m1 : TgMedia) (buf : TgSessionBuf)
    (hget : getSession st0.sessions sid = some buf)
    (hmedia : buf.pending.media = some m0)
    (hbufsid : buf.pending.sessionID = sid) (hsid : sid ≠ "") :
    (addMedia st0 now sid uid m1).2 = some (backfillUserID uid buf).pending
    ∧ ((backfillUserID uid buf).pending).media = some m0
    ∧ getSession (addMedia st0 now sid uid m1).1.sessions sid
        = some ⟨⟨sid, uid, [], some m1⟩, some st0.nextGen, now⟩
    ∧ (∀ g, buf.timerGen = some g → g < st0.nextGen →
        (timerFire (addMedia st0 now sid uid m1).1 sid g).2 = none) := by
  have hback : (backfillUserID uid buf).pending.media = some m0 := by
    unfold backfillUserID
    split <;> simp_all
  have hbacksid : (backfillUserID uid buf).pending.sessionID = sid := by
    unfold backfillUserID
    split <;> simp_all
  have hnocap : ¬ (telegramMaxWait ≤ now - now) := by
    unfold telegramMaxWait
    omega
  have e1 := getSession_setSession_same st0.sessions sid (backfillUserID uid buf)
  have e3 := getSession_delSession_same
    (setSession st0.sessions sid (backfillUserID uid buf)) sid
  have hmain : addMedia st0 now sid uid m1
      = (⟨setSession (setSession
            (delSession (setSession st0.sessions sid (backfillUserID uid buf)) sid) sid
            ⟨⟨sid, uid, [], some m1⟩, none, now⟩) sid
            ⟨⟨sid, uid, [], some m1⟩, some st0.nextGen, now⟩, st0.nextGen + 1⟩,
          some (backfillUserID uid buf).pending) := by
    unfold addMedia detachLocked resetTimerLocked
    simp only [hget, Option.getD_some, hback, ne_eq, reduceCtorEq, not_false_eq_true, if_true,
      ite_true, e1, e3, Option.getD_none, freshBuf]
    simp [hbacksid, hsid, Nat.sub_self, telegramMaxWait_ne_zero]
  refine ⟨by rw [hmain], hback, ?_, ?_⟩
  · rw [hmain]
    exact getSession_setSession_same _ _ _
  · intro g hgen hlt
    rw [hmain]
    unfold timerFire
    rw [getSession_setSession_same]
    simp only
    rw [if_neg (by simp; omega)]

/-- Witness for C3 at a concrete input: a buffer holding one text and a
photo receives a voice note; the old buffer is flushed whole, the new
buffer holds only the voice note. -/
theorem c3_witness :
    (addMedia ⟨[("tg:7", ⟨⟨"tg:7", "42", ["вот фото"],
          some ⟨"photo", "photo.jpg", "image/jpeg", [1, 2]⟩⟩, some 0, 100⟩)], 1⟩ 4000 "tg:7" "42"
        ⟨"voice", "voice.ogg", "audio/ogg", [3]⟩).2
      = some ⟨"tg:7", "42", ["вот фото"], some ⟨"photo", "photo.jpg", "image/jpeg", [1, 2]⟩⟩
    ∧ getSession (addMedia ⟨[("tg:7", ⟨⟨"tg:7", "42", ["вот фото"],
          some ⟨"photo", "photo.jpg", "image/jpeg", [1, 2]⟩⟩, some 0, 100⟩)], 1⟩ 4000 "tg:7" "42"
        ⟨"voice", "voice.ogg", "audio/ogg", [3]⟩).1.sessions "tg:7"
      = some ⟨⟨"tg:7", "42", [], some ⟨"voice", "voice.ogg", "audio/ogg", [3]⟩⟩, some 1, 4000⟩ := by
  obtain ⟨h1, -, h3, -⟩ :=
    c3_addMedia_flushes_existing_media
      ⟨[("tg:7", ⟨⟨"tg:7", "42", ["вот фото"],
          some ⟨"photo", "photo.jpg", "image/jpeg", [1, 2]⟩⟩, some 0, 100⟩)], 1⟩ 4000 "tg:7" "42"
      ⟨"photo", "photo.jpg", "image/jpeg", [1, 2]⟩ ⟨"voice", "voice.ogg", "audio/ogg", [3]⟩
      ⟨⟨"tg:7", "42", ["вот фото"], some ⟨"photo", "photo.jpg", "image/jpeg", [1, 2]⟩⟩, some 0, 100⟩
      (by decide) (by decide) (by decide) (by decide)
  exact ⟨h1, h3⟩

/-! ## Retrieval fallback chain (service.go lines 504–545, search.go)

The chain in `handleMessage` runs (when product search is needed):
article-exact search — only when `user_meta["document_articles"]` is
non-empty — whose *error is logged and swallowed* (the chain continues
with an empty product list); then, only when no products were found,
hybrid search (`searchProductsHybrid`), whose error aborts the turn
with HTTP 502; `searchProductsHybrid` itself retries text-only when the
vector RPC fails and falls back to the plain catalog listing
(`searchProductsFallback`) when the (possibly retried) RPC returns zero
rows and the query text is non-empty.  Each Supabase RPC response is an
oracle parameter; the embedded functions also report which stages
executed. -/

/-- A JSON metadata value (`map[string]interface{}` entries the chain
produces: strings, numbers and booleans). -/
inductive MetaVal where
  | str (s : String)
  | num (n : Int)
  | boolean (b : Bool)
deriving Repr, DecidableEq

/-- Go map read `meta[key]` (`none` for a missing key). -/
def metaLookup (meta : List (String × MetaVal)) (key : String) : Option MetaVal :=
  (meta.find? (fun p => decide (p.1 = key))).map (·.2)

/-- Decidable equality for `Except`, so concrete runs evaluate. -/
instance {ε α : Type _} [DecidableEq ε] [DecidableEq α] : DecidableEq (Except ε α) := fun a b =>
  match a, b with
  | .error e1, .error e2 =>
    if h : e1 = e2 then .isTrue (by rw [h]) else .isFalse (fun hc => h (by injection hc))
  | .ok a1, .ok a2 =>
    if h : a1 = a2 then .isTrue (by rw [h]) else .isFalse (fun hc => h (by injection hc))
  | .error _, .ok _ => .isFalse (fun hc => Except.noConfusion hc)
  | .ok _, .error _ => .isFalse (fun hc => Except.noConfusion hc)

/-- `SupabaseMatch` (id, content, metadata, similarity); the float64
similarity score is carried opaquely as an integer — no verified code
path reads it. -/
structure SupabaseMatch where
  id : Int
  content : String
  metadata : List (String × MetaVal)
  similarity : Int
deriving Repr, DecidableEq

/-- `productSearchRow` (search_products RPC row). -/
structure ProductSearchRow where
  id : Int
  nameRaw : String
  price : Option Int
  imageURL : Option String
  score : Int
  detectedBrand : Option String
  detectedColor : Option String
  detectedSeries : Option String
deriving Repr, DecidableEq

/-- `productFallbackRow` (get_all_products RPC row). -/
structure ProductFallbackRow where
  id : Int
  article : Option String
  nameRaw : String
  productType : Option String
  price : Option Int
  imageURL : Option String
  brand : Option String
  color : Option String
  category : Option String
deriving Repr, DecidableEq

/-- An optional metadata entry (`if r.X != nil { meta[k] = *r.X }`). -/
def metaEntryOpt (key : String) : Option MetaVal → List (String × MetaVal)
  | some v => [(key, v)]
  | none => []

/-- Row conversion in `searchProductsHybrid` (search.go lines 98–127). -/
def searchRowToMatch (r : ProductSearchRow) : SupabaseMatch :=
  { id := r.id
    content :=
      match r.price with
      | some p => r.nameRaw ++ " | Цена: " ++ toString p
      | none => r.nameRaw
    metadata :=
      ("name", MetaVal.str r.nameRaw) :: metaEntryOpt "price" (r.price.map MetaVal.num)
        ++ metaEntryOpt "image" (r.imageURL.map MetaVal.str)
        ++ metaEntryOpt "brand" (r.detectedBrand.map MetaVal.str)
        ++ metaEntryOpt "color" (r.detectedColor.map MetaVal.str)
        ++ metaEntryOpt "series" (r.detectedSeries.map MetaVal.str)
    similarity := r.score }

/-- Row conversion in `searchProductsFallback` (search.go lines 144–182). -/
def fallbackRowToMatch (r : ProductFallbackRow) : SupabaseMatch :=
  { id := r.id
    content :=
      (match r.brand with
        | some b => if b ≠ "" then r.nameRaw ++ " | Бренд: " ++ b else r.nameRaw
        | none => r.nameRaw)
      ++ (match r.price with
        | some p => " | Цена: " ++ toString p
        | none => "")
    metadata :=
      ("name", MetaVal.str r.nameRaw) :: metaEntryOpt "article" (r.article.map MetaVal.str)
        ++ metaEntryOpt "type" (r.productType.map MetaVal.str)
        ++ metaEntryOpt "price" (r.price.map MetaVal.num)
        ++ metaEntryOpt "image" (r.imageURL.map MetaVal.str)
        ++ metaEntryOpt "brand" (r.brand.map MetaVal.str)
        ++ metaEntryOpt "color" (r.color.map MetaVal.str)
        ++ metaEntryOpt "category" (r.category.map MetaVal.str)
    similarity := 0 }

/-- `normalizeArticles` (search.go lines 379–394): trim, upper-case,
drop short or duplicate tokens, keep first-seen order.  Length is in
characters (Go compares bytes; the tokens are ASCII article codes). -/
def normalizeArticlesAux : List String → List String → List String
  | [], acc => acc.reverse
  | a :: rest, acc =>
    let na := goToUpper (goTrim a)
    if na = "" ∨ na.data.length < 3 ∨ na ∈ acc then normalizeArticlesAux rest acc
    else normalizeArticlesAux rest (na :: acc)

/-- `normalizeArticles`. -/
def normalizeArticles (l : List String) : List String := normalizeArticlesAux l []

/-- Inner loop of pass one of `searchProductsByArticles`: append rows not
yet seen (no capacity check inside this loop, matching the Go code). -/
def artAddRows : List SupabaseMatch → List Int → List SupabaseMatch →
    List Int × List SupabaseMatch
  | [], seen, out => (seen, out)
  | r :: rs, seen, out =>
    if r.id ∈ seen then artAddRows rs seen out
    else artAddRows rs (r.id :: seen) (out ++ [r])

/-- Inner loop of pass two: append unseen rows, stopping at capacity. -/
def artAddRowsCapped : List SupabaseMatch → Int → List Int → List SupabaseMatch →
    List Int × List SupabaseMatch
  | [], _, seen, out => (seen, out)
  | r :: rs, limit, seen, out =>
    if r.id ∈ seen then artAddRowsCapped rs limit seen out
    else
      let out2 := out ++ [r]
      if (out2.length : Int) ≥ limit then (r.id :: seen, out2)
      else artAddRowsCapped rs limit (r.id :: seen) out2

/-- Pass one of `searchProductsByArticles`: at most one fetched match per
article; a fetch error aborts the whole search. -/
def artPassOne (fetch : String → Nat → Except String (List SupabaseMatch)) :
    List String → Int → List Int → List SupabaseMatch →
    Except String (List Int × List SupabaseMatch)
  | [], _, seen, out => .ok (seen, out)
  | article :: rest, limit, seen, out =>
    if (out.length : Int) ≥ limit then .ok (seen, out)
    else
      match fetch article 1 with
      | .error e => .error e
      | .ok rows =>
        let res := artAddRows rows seen out
        artPassOne fetch rest limit res.1 res.2

/-- Pass two: fill remaining capacity allowing several matches per
article. -/
def artPassTwo (fetch : String → Nat → Except String (List SupabaseMatch)) :
    List String → Int → List Int → List SupabaseMatch →
    Except String (List Int × List SupabaseMatch)
  | [], _, seen, out => .ok (seen, out)
  | article :: rest, limit, seen, out =>
    if (out.length : Int) ≥ limit then .ok (seen, out)
    else
      match fetch article 5 with
      | .error e => .error e
      | .ok rows =>
        let res := artAddRowsCapped rows limit seen out
        artPassTwo fetch rest limit res.1 res.2

/-- `searchProductsByArticles` (search.go lines 262–312), over a
`fetchProductsByArticle` oracle. -/
def searchProductsByArticles (fetch : String → Nat → Except String (List SupabaseMatch))
    (articles : List String) (limit0 : Int) : Except String (List SupabaseMatch) :=
  let limit := if limit0 ≤ 0 then 5 else limit0
  let normalized := normalizeArticles articles
  if normalized = [] then .ok []
  else
    match artPassOne fetch normalized limit [] [] with
    | .error e => .error e
    | .ok res =>
      if (res.2.length : Int) < limit then
        match artPassTwo fetch normalized limit res.1 res.2 with
        | .error e => .error e
        | .ok res2 => .ok res2.2
      else .ok res.2

/-- Which retrieval stages a call executed. -/
inductive RetrievalStage where
  | articleExact
  | hybrid
  | textOnly
  | plainListing
deriving Repr, DecidableEq

/-- The Supabase responses one retrieval run would see. -/
structure RetrievalOracle where
  fetchArticle : String → Nat → Except String (List SupabaseMatch)
  hybridRPC : Except String (List ProductSearchRow)
  textRPC : Except String (List ProductSearchRow)
  fallbackRPC : Except String (List ProductFallbackRow)

/-- The `search_products` call with its text-only retry (search.go lines
85–94), with the stages executed. -/
def hybridRowsResult (o : RetrievalOracle) :
    Except String (List ProductSearchRow) × List RetrievalStage :=
  match o.hybridRPC with
  | .ok rows => (.ok rows, [RetrievalStage.hybrid])
  | .error e =>
    match o.textRPC with
    | .ok rows => (.ok rows, [RetrievalStage.hybrid, RetrievalStage.textOnly])
    | .error e2 =>
      (.error ("search_products failed: " ++ e ++ "; text-only failed: " ++ e2),
        [RetrievalStage.hybrid, RetrievalStage.textOnly])

/-- `searchProductsFallback` (search.go lines 131–184). -/
def searchProductsFallback (fallbackRPC : Except String (List ProductFallbackRow))
    (limit : Int) : Except String (List SupabaseMatch) :=
  match fallbackRPC with
  | .error e => .error e
  | .ok rows =>
    let rows2 := if limit > 0 ∧ (rows.length : Int) > limit then rows.take limit.toNat else rows
    .ok (rows2.map fallbackRowToMatch)

/-- `searchProductsHybrid` (search.go lines 67–129): RPC with text-only
retry; when the returned row set is empty and the query text non-blank,
delegate to the plain listing fallback; otherwise convert the rows. -/
def searchProductsHybrid (o : RetrievalOracle) (queryText : String) (limit0 : Int) :
    Except String (List SupabaseMatch) × List RetrievalStage :=
  let limit := if limit0 ≤ 0 then 5 else limit0
  match hybridRowsResult o with
  | (.error e, stages) => (.error e, stages)
  | (.ok rows, stages) =>
    if rows = [] ∧ goTrim queryText ≠ "" then
      (searchProductsFallback o.fallbackRPC limit, stages ++ [RetrievalStage.plainListing])
    else (.ok (rows.map searchRowToMatch), stages)

/-- The product-retrieval chain of `handleMessage` (service.go lines
506–527), given `needProducts`: article-exact search runs only when the
inbound metadata carries document article tokens, and its error is
logged and swallowed (the product list stays empty); hybrid search runs
only when no products were found and its error aborts the turn. -/
def retrieveProducts (o : RetrievalOracle) (docArticles : List String) (queryText : String)
    (matchCount : Int) : Except String (List SupabaseMatch) × List RetrievalStage :=
  let art :=
    if docArticles ≠ [] then
      match searchProductsByArticles o.fetchArticle docArticles matchCount with
      | .ok ps => (ps, [RetrievalStage.articleExact])
      | .error _ => ([], [RetrievalStage.articleExact])
    else ([], [])
  if art.1 ≠ [] then (.ok art.1, art.2)
  else
    ((searchProductsHybrid o queryText matchCount).1,
      art.2 ++ (searchProductsHybrid o queryText matchCount).2)

/-- The hybrid search never reports the article stage, its stages obey
the order hybrid → text-only → plain-listing, the listing fallback runs
exactly when the (retried) RPC succeeded with zero rows on a non-blank
query, and a non-empty hybrid row set blocks the listing fallback. -/
theorem searchProductsHybrid_stage_facts (o : RetrievalOracle) (q : String) (mc : Int) :
    List.Sublist (searchProductsHybrid o q mc).2
      [RetrievalStage.hybrid, RetrievalStage.textOnly, RetrievalStage.plainListing]
    ∧ RetrievalStage.articleExact ∉ (searchProductsHybrid o q mc).2
    ∧ RetrievalStage.hybrid ∈ (searchProductsHybrid o q mc).2
    ∧ (RetrievalStage.plainListing ∈ (searchProductsHybrid o q mc).2 →
        (hybridRowsResult o).1 = .ok [] ∧ goTrim q ≠ "")
    ∧ (∀ rows, (hybridRowsResult o).1 = .ok rows → rows ≠ [] →
        RetrievalStage.plainListing ∉ (searchProductsHybrid o q mc).2
        ∧ (searchProductsHybrid o q mc).1 = .ok (rows.map searchRowToMatch)) := by
  obtain ⟨fa, hrpc, trpc, frpc⟩ := o
  unfold searchProductsHybrid hybridRowsResult
  rcases hrpc with e | rows
  · rcases trpc with e2 | rows2
    · dsimp only
      exact ⟨by decide, by decide, by decide, by simp, by simp⟩
    · dsimp only
      by_cases hc : rows2 = [] ∧ goTrim q ≠ ""
      · rw [if_pos hc]
        dsimp only
        refine ⟨by decide, by decide, by decide, fun _ => ⟨by simp [hc.1], hc.2⟩, ?_⟩
        intro rows h hne
        simp only [Except.ok.injEq] at h
        exact absurd (h ▸ hc.1) hne
      · rw [if_neg hc]
        dsimp only
        refine ⟨by decide, by decide, by decide, fun hmem => absurd hmem (by decide), ?_⟩
        intro rows h hne
        simp only [Except.ok.injEq] at h
        exact ⟨by decide, by rw [h]⟩
  · dsimp only
    by_cases hc : rows = [] ∧ goTrim q ≠ ""
    · rw [if_pos hc]
      dsimp only
      refine ⟨by decide, by decide, by decide, fun _ => ⟨by simp [hc.1], hc.2⟩, ?_⟩
      intro rows2 h hne
      simp only [Except.ok.injEq] at h
      exact absurd (h ▸ hc.1) hne
    · rw [if_neg hc]
      dsimp only
      refine ⟨by decide, by decide, by decide, fun hmem => absurd hmem (by decide), ?_⟩
      intro rows2 h hne
      simp only [Except.ok.injEq] at h
      exact ⟨by decide, by rw [h]⟩

/-- With no document articles the chain is exactly the hybrid search. -/
theorem retrieveProducts_empty_doc (o : RetrievalOracle) (q : String) (mc : Int) :
    retrieveProducts o [] q mc
      = ((searchProductsHybrid o q mc).1, (searchProductsHybrid o q mc).2) := by
  unfold retrieveProducts
  simp

/-- A non-empty article-exact result short-circuits the chain. -/
theorem retrieveProducts_art_ok (o : RetrievalOracle) (q : String) (mc : Int)
    (docArticles : List String) (ps : List SupabaseMatch) (hdoc : docArticles ≠ [])
    (hok : searchProductsByArticles o.fetchArticle docArticles mc = .ok ps) (hne : ps ≠ []) :
    retrieveProducts o docArticles q mc = (.ok ps, [RetrievalStage.articleExact]) := by
  unfold retrieveProducts
  rw [if_pos hdoc, hok]
  dsimp only
  rw [if_pos hne]

/-- An empty or failed article-exact stage hands over to hybrid search. -/
theorem retrieveProducts_art_passthrough (o : RetrievalOracle) (q : String) (mc : Int)
    (docArticles : List String) (hdoc : docArticles ≠ [])
    (h : searchProductsByArticles o.fetchArticle docArticles mc = .ok []
      ∨ ∃ e, searchProductsByArticles o.fetchArticle docArticles mc = .error e) :
    retrieveProducts o docArticles q mc
      = ((searchProductsHybrid o q mc).1,
          RetrievalStage.articleExact :: (searchProductsHybrid o q mc).2) := by
  unfold retrieveProducts
  rw [if_pos hdoc]
  rcases h with hok | ⟨e, herr⟩
  · rw [hok]
    dsimp only
    rw [if_neg (by simp)]
    rfl
  · rw [herr]
    dsimp only
    rw [if_neg (by simp)]
    rfl

/-- `hybridRowsResult` succeeds exactly as its underlying RPCs do. -/
theorem hybridRowsResult_fst_of_hybrid_ok (o : RetrievalOracle) (rows : List ProductSearchRow)
    (h : o.hybridRPC = .ok rows) : (hybridRowsResult o).1 = .ok rows := by
  unfold hybridRowsResult
  rw [h]

/-- **C5.** The retrieval chain is strictly ordered article-exact →
hybrid → text-only retry → plain listing with no stage repeated; the
article stage runs iff document article tokens are present; a non-empty
article-exact result prevents every later stage; a non-empty hybrid row
set prevents the plain listing; and the plain listing runs only when the
(possibly retried) hybrid RPC returned zero rows on a non-blank query. -/
theorem c5_retrieval_strict_order (o : RetrievalOracle) (docArticles : List String)
    (q : String) (mc : Int) :
    List.Sublist (retrieveProducts o docArticles q mc).2
      [RetrievalStage.articleExact, RetrievalStage.hybrid, RetrievalStage.textOnly,
        RetrievalStage.plainListing]
    ∧ (RetrievalStage.articleExact ∈ (retrieveProducts o docArticles q mc).2 ↔ docArticles ≠ [])
    ∧ (∀ ps, docArticles ≠ [] →
        searchProductsByArticles o.fetchArticle docArticles mc = .ok ps → ps ≠ [] →
        retrieveProducts o docArticles q mc = (.ok ps, [RetrievalStage.articleExact]))
    ∧ (∀ rows, o.hybridRPC = .ok rows → rows ≠ [] →
        RetrievalStage.plainListing ∉ (retrieveProducts o docArticles q mc).2)
    ∧ (RetrievalStage.plainListing ∈ (retrieveProducts o docArticles q mc).2 →
        (hybridRowsResult o).1 = .ok [] ∧ goTrim q ≠ "") := by
  obtain ⟨hsub, hnoart, hhyb, hpl, hblock⟩ := searchProductsHybrid_stage_facts o q mc
  by_cases hdoc : docArticles = []
  · subst hdoc
    rw [retrieveProducts_empty_doc]
    refine ⟨hsub.cons _, by simp [hnoart], ?_, ?_, hpl⟩
    · intro ps hne
      exact absurd rfl hne
    · intro rows hh hrne
      exact (hblock rows (hybridRowsResult_fst_of_hybrid_ok o rows hh) hrne).1
  · rcases hart : searchProductsByArticles o.fetchArticle docArticles mc with e | ps
    · rw [retrieveProducts_art_passthrough o q mc docArticles hdoc (Or.inr ⟨e, hart⟩)]
      refine ⟨List.cons_sublist_cons.mpr hsub, by simp [hdoc], ?_, ?_, ?_⟩
      · intro ps' _ hok
        exact absurd hok (by simp)
      · intro rows hh hrne
        have hb := (hblock rows (hybridRowsResult_fst_of_hybrid_ok o rows hh) hrne).1
        simp [hb]
      · intro hmem
        rcases List.mem_cons.mp hmem with h | h
        · exact absurd h (by decide)
        · exact hpl h
    · by_cases hne : ps = []
      · subst hne
        rw [retrieveProducts_art_passthrough o q mc docArticles hdoc (Or.inl hart)]
        refine ⟨List.cons_sublist_cons.mpr hsub, by simp [hdoc], ?_, ?_, ?_⟩
        · intro ps' _ hok hne'
          simp only [Except.ok.injEq] at hok
          exact absurd hok.symm hne'
        · intro rows hh hrne
          have hb := (hblock rows (hybridRowsResult_fst_of_hybrid_ok o rows hh) hrne).1
          simp [hb]
        · intro hmem
          rcases List.mem_cons.mp hmem with h | h
          · exact absurd h (by decide)
          · exact hpl h
      · rw [retrieveProducts_art_ok o q mc docArticles ps hdoc hart hne]
        dsimp only
        refine ⟨by decide, by simp [hdoc], ?_, fun _ _ _ => by decide, ?_⟩
        · intro ps' _ hok _
          simp only [Except.ok.injEq] at hok
          rw [hok]
        · intro hmem
          exact absurd hmem (by decide)

/-- Witness for C5 at a concrete input: a successful article-exact
search short-circuits the chain. -/
def oraC5 : RetrievalOracle :=
  { fetchArticle := fun _ _ => .ok [⟨7, "Розетка ABC123", [("name", MetaVal.str "Розетка ABC123")], 0⟩]
    hybridRPC := .error "never reached"
    textRPC := .error "never reached"
    fallbackRPC := .error "never reached" }

theorem c5_witness :
    retrieveProducts oraC5 ["ABC123"] "розетка abc123" 5
      = (.ok [⟨7, "Розетка ABC123", [("name", MetaVal.str "Розетка ABC123")], 0⟩],
          [RetrievalStage.articleExact]) :=
  (c5_retrieval_strict_order oraC5 ["ABC123"] "розетка abc123" 5).2.2.1
    [⟨7, "Розетка ABC123", [("name", MetaVal.str "Розетка ABC123")], 0⟩]
    (by decide) (by decide) (by decide)

/-- The concrete oracle refuting C6's article-stage half: the article
fetch fails, the hybrid RPC succeeds. -/
def oraC6 : RetrievalOracle :=
  { fetchArticle := fun _ _ => .error "boom"
    hybridRPC := .ok [⟨11, "Розетка", some 5000, none, 3, none, none, none⟩]
    textRPC := .error "unused"
    fallbackRPC := .error "unused" }

/-- **C6, counterexample.**  The article-exact stage errors, yet the turn
does not fail: its error is swallowed and the hybrid stage runs and
supplies the result. -/
theorem c6_counterexample :
    searchProductsByArticles oraC6.fetchArticle ["ABC123"] 5 = .error "boom"
    ∧ (retrieveProducts oraC6 ["ABC123"] "розетка" 5).1
        = .ok [searchRowToMatch ⟨11, "Розетка", some 5000, none, 3, none, none, none⟩]
    ∧ RetrievalStage.hybrid ∈ (retrieveProducts oraC6 ["ABC123"] "розетка" 5).2 := by
  decide

/-- Both the vector RPC and its text-only retry failing makes the hybrid
stage return the combined error. -/
theorem searchProductsHybrid_both_err (o : RetrievalOracle) (q : String) (mc : Int)
    (e1 e2 : String) (h1 : o.hybridRPC = .error e1) (h2 : o.textRPC = .error e2) :
    searchProductsHybrid o q mc
      = (.error ("search_products failed: " ++ e1 ++ "; text-only failed: " ++ e2),
          [RetrievalStage.hybrid, RetrievalStage.textOnly]) := by
  unfold searchProductsHybrid hybridRowsResult
  rw [h1, h2]

/-- When the plain-listing stage runs and its RPC fails, the hybrid
chain returns that error. -/
theorem searchProductsHybrid_fallback_err (o : RetrievalOracle) (q : String) (mc : Int)
    (e : String) (hfe : o.fallbackRPC = .error e)
    (hmem : RetrievalStage.plainListing ∈ (searchProductsHybrid o q mc).2) :
    (searchProductsHybrid o q mc).1 = .error e := by
  obtain ⟨hok, hq⟩ := (searchProductsHybrid_stage_facts o q mc).2.2.2.1 hmem
  rcases hR : hybridRowsResult o with ⟨res, st⟩
  rw [hR] at hok
  simp only at hok
  subst hok
  unfold searchProductsHybrid
  rw [hR]
  dsimp only
  rw [if_pos ⟨rfl, hq⟩]
  dsimp only
  unfold searchProductsFallback
  rw [hfe]

/-- **C6, amended.**  An error from the article-exact stage is logged and
swallowed: retrieval continues with the hybrid stage and the turn's
outcome is the hybrid chain's outcome.  An unrecoverable error at the
hybrid stage (vector RPC *and* its text-only retry both failing) or at
the plain-listing stage, whenever that stage actually runs, aborts the
whole retrieval with that error, which `handleMessage` surfaces as a
turn failure. -/
theorem c6_amended_error_policy (o : RetrievalOracle) (docArticles : List String)
    (q : String) (mc : Int) :
    (docArticles ≠ [] →
      (∃ e, searchProductsByArticles o.fetchArticle docArticles mc = .error e) →
      retrieveProducts o docArticles q mc
        = ((searchProductsHybrid o q mc).1,
            RetrievalStage.articleExact :: (searchProductsHybrid o q mc).2))
    ∧ (∀ e1 e2, o.hybridRPC = .error e1 → o.textRPC = .error e2 →
        RetrievalStage.hybrid ∈ (retrieveProducts o docArticles q mc).2 →
        (retrieveProducts o docArticles q mc).1
          = .error ("search_products failed: " ++ e1 ++ "; text-only failed: " ++ e2))
    ∧ (∀ e, o.fallbackRPC = .error e →
        RetrievalStage.plainListing ∈ (retrieveProducts o docArticles q mc).2 →
        (retrieveProducts o docArticles q mc).1 = .error e) := by
  refine ⟨?_, ?_, ?_⟩
  · intro hdoc ⟨e, herr⟩
    exact retrieveProducts_art_passthrough o q mc docArticles hdoc (Or.inr ⟨e, herr⟩)
  · intro e1 e2 h1 h2 hmem
    have hh := searchProductsHybrid_both_err o q mc e1 e2 h1 h2
    by_cases hdoc : docArticles = []
    · subst hdoc
      rw [retrieveProducts_empty_doc, hh]
    · rcases hart : searchProductsByArticles o.fetchArticle docArticles mc with e | ps
      · rw [retrieveProducts_art_passthrough o q mc docArticles hdoc (Or.inr ⟨e, hart⟩), hh]
      · by_cases hne : ps = []
        · subst hne
          rw [retrieveProducts_art_passthrough o q mc docArticles hdoc (Or.inl hart), hh]
        · rw [retrieveProducts_art_ok o q mc docArticles ps hdoc hart hne] at hmem
          exact absurd hmem (by simp)
  · intro e hfe hmem
    by_cases hdoc : docArticles = []
    · subst hdoc
      rw [retrieveProducts_empty_doc] at hmem ⊢
      exact searchProductsHybrid_fallback_err o q mc e hfe hmem
    · rcases hart : searchProductsByArticles o.fetchArticle docArticles mc with e' | ps
      · rw [retrieveProducts_art_passthrough o q mc docArticles hdoc (Or.inr ⟨e', hart⟩)]
          at hmem ⊢
        rcases List.mem_cons.mp hmem with h | h
        · exact absurd h (by decide)
        · exact searchProductsHybrid_fallback_err o q mc e hfe h
      · by_cases hne : ps = []
        · subst hne
          rw [retrieveProducts_art_passthrough o q mc docArticles hdoc (Or.inl hart)]
            at hmem ⊢
          rcases List.mem_cons.mp hmem with h | h
          · exact absurd h (by decide)
          · exact searchProductsHybrid_fallback_err o q mc e hfe h
        · rw [retrieveProducts_art_ok o q mc docArticles ps hdoc hart hne] at hmem
          exact absurd hmem (by simp)

/-- Witness for the amended C6 at a concrete input: a failing article
fetch is swallowed and the chain proceeds to the hybrid stage. -/
theorem c6_witness :
    retrieveProducts oraC6 ["ABC123"] "розетка" 5
      = ((searchProductsHybrid oraC6 "розетка" 5).1,
          RetrievalStage.articleExact :: (searchProductsHybrid oraC6 "розетка" 5).2) :=
  (c6_amended_error_policy oraC6 ["ABC123"] "розетка" 5).1 (by decide) ⟨"boom", by decide⟩

/-! ## Answer generation tail of the turn (service.go lines 596–656)

After retrieval, the turn calls the generative service.  A *failed* call
aborts the turn with an HTTP 502 ("openai generation failed"); an
*empty* (after trimming) answer is replaced by the canned clarifying
phrase, after which the turn proceeds to link appending, the quote
offer, and persistence.  The pipeline below captures that tail: its
`Except.error` outcome is the aborted turn, its `Except.ok` outcome the
final answer (after link/offer post-processing) plus the offer flag
persisted in metadata. -/

/-- The canned clarifying fallback phrase (service.go line 604). -/
def clarifyFallbackAnswer : String :=
  "Нашёл несколько вариантов. Уточните, пожалуйста, что именно нужно (тип/серия/цвет)."

/-- Lines 596–605: abort on a failed generative call; substitute the
canned phrase for a blank answer. -/
def answerAfterGeneration (genResult : Except String String) : Except String String :=
  match genResult with
  | .error e => .error e
  | .ok a => .ok (if goTrim a = "" then clarifyFallbackAnswer else a)

/-- The fixed product-keyword stems of `isLikelyProductQuery` (utils.go). -/
def productKeywords : List String :=
  ["розет", "выключ", "рамк", "кабель", "вилк", "патрон", "люстр", "светиль",
   "реле", "автомат", "щит", "удлин", "диммер", "датчик", "шнур"]

/-- `isLikelyProductQuery` (utils.go lines 267–282). -/
def isLikelyProductQuery (msg : String) : Bool :=
  let m := goToLower (goTrim msg)
  if m = "" then false
  else productKeywords.any (fun k => goContains m k)

/-- `appendProductLinks` (utils.go lines 10–20). -/
def appendProductLinks (answer : String) (products : List SupabaseMatch) : String :=
  goTrim (goTrim answer ++ "\n\nСсылки на товары:\n"
    ++ String.join (products.map
        (fun p => "https://apache.iq-home.kz/products/" ++ toString p.id ++ "\n")))

/-- Lines 596–615 of `handleMessage`: generation outcome, link
appending, quote offer.  Returns the final answer and the `kp_offer`
flag, or the error that aborts the turn. -/
def turnAnswerPipeline (genResult : Except String String) (message : String)
    (needProducts userWantsQuote incomingQuotePDF kpOffered : Bool)
    (products : List SupabaseMatch) : Except String (String × Bool) :=
  match answerAfterGeneration genResult with
  | .error e => .error e
  | .ok answer0 =>
    let answer1 :=
      if needProducts && !products.isEmpty && isLikelyProductQuery message then
        appendProductLinks answer0 products
      else answer0
    let offerKp :=
      needProducts && !products.isEmpty && !userWantsQuote && !incomingQuotePDF && !kpOffered
    let answer2 :=
      if offerKp then goTrim answer1 ++ "\n\nМогу собрать КП — собрать?" else answer1
    .ok (answer2, offerKp)

/-- **C7, counterexample.**  A failed generative call does *not* receive
the canned fallback: the turn aborts with the generation error (HTTP 502
"openai generation failed"), so the link-appending, quote-offer and
persistence steps never run. -/
theorem c7_counterexample :
    turnAnswerPipeline (Except.error "openai request failed") "какие розетки есть?" true false
        false false [⟨1, "Розетка", [("name", MetaVal.str "Розетка")], 0⟩]
      = Except.error "openai request failed" := rfl

/-- **C7, amended.**  When the generative call *returns* an empty
(after trimming) answer, the turn substitutes the canned clarifying
phrase and continues — the rest of the pipeline behaves exactly as if
the model had produced that phrase, and the turn reaches the
link-appending/quote-offer/persistence steps with an `ok` outcome.
When the generative call *fails*, the turn aborts with that error. -/
theorem c7_amended_empty_generation_fallback (a : String) (ha : goTrim a = "")
    (message : String) (np uq iq kp : Bool) (products : List SupabaseMatch) :
    turnAnswerPipeline (.ok a) message np uq iq kp products
      = turnAnswerPipeline (.ok clarifyFallbackAnswer) message np uq iq kp products
    ∧ answerAfterGeneration (.ok a) = .ok clarifyFallbackAnswer
    ∧ (∃ pr, turnAnswerPipeline (.ok a) message np uq iq kp products = .ok pr)
    ∧ (∀ e, turnAnswerPipeline (.error e) message np uq iq kp products = .error e) := by
  have h2 : answerAfterGeneration (.ok a) = .ok clarifyFallbackAnswer := by
    unfold answerAfterGeneration
    dsimp only
    rw [if_pos ha]
  have h3 : answerAfterGeneration (.ok clarifyFallbackAnswer) = .ok clarifyFallbackAnswer := by
    unfold answerAfterGeneration
    dsimp only
    rw [if_neg (by decide : ¬ goTrim clarifyFallbackAnswer = "")]
  refine ⟨?_, h2, ?_, fun e => rfl⟩
  · unfold turnAnswerPipeline
    rw [h2, h3]
  · unfold turnAnswerPipeline
    rw [h2]
    exact ⟨_, rfl⟩

/-- Witness for the amended C7 at a concrete input. -/
theorem c7_witness :
    turnAnswerPipeline (.ok "  ") "какие розетки есть?" true false false false
        [⟨1, "Розетка", [("name", MetaVal.str "Розетка")], 0⟩]
      = turnAnswerPipeline (.ok clarifyFallbackAnswer) "какие розетки есть?" true false false
        false [⟨1, "Розетка", [("name", MetaVal.str "Розетка")], 0⟩] :=
  (c7_amended_empty_generation_fallback "  " (by decide) "какие розетки есть?" true false false
    false [⟨1, "Розетка", [("name", MetaVal.str "Розетка")], 0⟩]).1

/-! ## Quote assembler (quote.go) -/

/-- Name extraction from `Content` when metadata lacks a usable name:
`strings.Index(content, " | ")`, slice before the separator when it
occurs past the start, else the trimmed content. -/
def extractNameFromContent (content : String) : String :=
  match charsIndexOf " | ".data content.data with
  | some i => if i > 0 then goTrim ⟨content.data.take i⟩ else goTrim content
  | none => goTrim content

/-- `extractProductName` (quote.go lines 46–58). -/
def extractProductName (p : SupabaseMatch) : String :=
  match metaLookup p.metadata "name" with
  | some (MetaVal.str s) => if goTrim s ≠ "" then s else extractNameFromContent p.content
  | _ => extractNameFromContent p.content

/-- Digit run to number. -/
def digitsToNat (cs : List Char) : Nat :=
  cs.foldl (fun n c => n * 10 + (c.toNat - 48)) 0

/-- `strconv.ParseFloat(strings.ReplaceAll(t, ",", "."), 64)` followed by
`int64(...)` truncation, modelled for plain decimal literals (the only
shape price metadata takes); exotic forms (exponents, infinities) are
out of scope and parse as `none`. -/
def parsePriceString (s : String) : Option Int :=
  let cs := s.data.map (fun c => if c = ',' then '.' else c)
  let sign : Int := match cs with
    | '-' :: _ => -1
    | _ => 1
  let body := match cs with
    | '-' :: r => r
    | '+' :: r => r
    | r => r
  let ip := body.takeWhile (· ≠ '.')
  let rest := body.dropWhile (· ≠ '.')
  let valid :=
    match rest with
    | [] => !ip.isEmpty && ip.all Char.isDigit
    | _ :: frac => !(ip ++ frac).isEmpty && ip.all Char.isDigit && frac.all Char.isDigit
  if valid then some (sign * (digitsToNat ip : Int)) else none

/-- `extractProductPrice` (quote.go lines 60–80): numeric metadata is
truncated to an integer price; string metadata is parsed with the
comma-to-dot replacement; everything else resolves to 0. -/
def extractProductPrice (p : SupabaseMatch) : Int :=
  match metaLookup p.metadata "price" with
  | some (MetaVal.num n) => n
  | some (MetaVal.str t) => (parsePriceString t).getD 0
  | _ => 0

/-- `quote.Item`. -/
structure QuoteItem where
  productID : Int
  name : String
  qty : Int
  unitPrice : Int
  lineTotal : Int
deriving Repr, DecidableEq

/-- `quote.Quote` (pdf rendering excluded; the generator prints the
fields verbatim). -/
structure Quote where
  number : String
  createdAt : Nat
  customerName : String
  comment : String
  items : List QuoteItem
  discountPercent : Int
  subtotal : Int
  discountAmount : Int
  total : Int
deriving Repr, DecidableEq

/-- The line item `generateQuotePDF` builds for a product, when its
extracted price is positive. -/
def quoteItemOf (p : SupabaseMatch) : Option QuoteItem :=
  let price := extractProductPrice p
  if price ≤ 0 then none
  else some ⟨p.id, extractProductName p, 1, price, price⟩

/-- One iteration of the `generateQuotePDF` loop: skip non-positive
prices, append the qty-1 line item, accumulate the subtotal. -/
def quoteStep (acc : List QuoteItem × Int) (p : SupabaseMatch) : List QuoteItem × Int :=
  let price := extractProductPrice p
  if price ≤ 0 then acc
  else (acc.1 ++ [⟨p.id, extractProductName p, 1, price, price⟩], acc.2 + price)

/-- `generateQuotePDF` (quote.go lines 14–44) up to the PDF rendering:
the assembled `quote.Quote` value handed to the generator.  The discount
fields keep their zero values on this path (`q.Total = subtotal`). -/
def generateQuote (now : Nat) (products : List SupabaseMatch) : Except String Quote :=
  let res := products.foldl quoteStep ([], 0)
  if res.1 = [] then .error "no products for quote"
  else
    .ok { number := "NF-1", createdAt := now, customerName := "Клиент", comment := ""
          items := res.1, discountPercent := 0, subtotal := res.2, discountAmount := 0
          total := res.2 }

/-- The fold underlying `generateQuotePDF` appends exactly the
positively-priced items and sums their line totals. -/
theorem quoteFold_spec (products : List SupabaseMatch) (acc : List QuoteItem × Int) :
    (products.foldl quoteStep acc).1 = acc.1 ++ products.filterMap quoteItemOf
    ∧ (products.foldl quoteStep acc).2
        = acc.2 + ((products.filterMap quoteItemOf).map (·.lineTotal)).sum := by
  induction products generalizing acc with
  | nil => simp
  | cons p rest ih =>
    simp only [List.foldl_cons, List.filterMap_cons]
    by_cases h : extractProductPrice p ≤ 0
    · have hstep : quoteStep acc p = acc := by
        unfold quoteStep
        rw [if_pos h]
      have hitem : quoteItemOf p = none := by
        unfold quoteItemOf
        rw [if_pos h]
      rw [hstep, hitem]
      exact ih acc
    · have hstep : quoteStep acc p
          = (acc.1 ++ [⟨p.id, extractProductName p, 1, extractProductPrice p,
              extractProductPrice p⟩], acc.2 + extractProductPrice p) := by
        unfold quoteStep
        rw [if_neg h]
      have hitem : quoteItemOf p
          = some ⟨p.id, extractProductName p, 1, extractProductPrice p,
              extractProductPrice p⟩ := by
        unfold quoteItemOf
        rw [if_neg h]
      rw [hstep, hitem]
      obtain ⟨ih1, ih2⟩ := ih (acc.1 ++ [⟨p.id, extractProductName p, 1, extractProductPrice p,
        extractProductPrice p⟩], acc.2 + extractProductPrice p)
      constructor
      · rw [ih1]
        simp
      · rw [ih2]
        simp only [List.map_cons, List.sum_cons]
        ring

/-- **C9.**  The quote assembler builds exactly one quantity-1 line item
per product with a positive resolvable price (non-positive extracted
prices are skipped), sets the subtotal to the sum of the line totals,
computes the total from the subtotal with the (here absent, hence zero)
percentage discount applied, and errors iff no priced item remains. -/
theorem c9_quote_one_item_per_priced_product (now : Nat) (products : List SupabaseMatch) :
    (∀ q, generateQuote now products = .ok q →
      q.items = products.filterMap quoteItemOf
      ∧ (∀ it ∈ q.items, it.qty = 1 ∧ 0 < it.unitPrice ∧ it.lineTotal = it.unitPrice)
      ∧ q.subtotal = (q.items.map (·.lineTotal)).sum
      ∧ q.discountPercent = 0
      ∧ q.total = q.subtotal - q.subtotal * q.discountPercent / 100)
    ∧ ((∃ e, generateQuote now products = .error e) ↔ products.filterMap quoteItemOf = []) := by
  obtain ⟨hf1, hf2⟩ := quoteFold_spec products ([], 0)
  simp only [List.nil_append, Int.zero_add] at hf1 hf2
  constructor
  · intro q hq
    unfold generateQuote at hq
    by_cases hempty : (products.foldl quoteStep ([], 0)).1 = []
    · rw [if_pos hempty] at hq
      exact absurd hq (by simp)
    · rw [if_neg hempty] at hq
      simp only [Except.ok.injEq] at hq
      subst hq
      refine ⟨hf1, ?_, by rw [hf1, hf2], rfl, by simp⟩
      intro it hit
      rw [hf1] at hit
      obtain ⟨p, -, hsome⟩ := List.mem_filterMap.mp hit
      unfold quoteItemOf at hsome
      by_cases h : extractProductPrice p ≤ 0
      · rw [if_pos h] at hsome
        exact absurd hsome (by simp)
      · rw [if_neg h] at hsome
        simp only [Option.some.injEq] at hsome
        subst hsome
        refine ⟨rfl, ?_, rfl⟩
        dsimp only
        omega
  · constructor
    · rintro ⟨e, he⟩
      unfold generateQuote at he
      by_cases hempty : (products.foldl quoteStep ([], 0)).1 = []
      · rw [← hf1, hempty]
      · rw [if_neg hempty] at he
        exact absurd he (by simp)
    · intro hfm
      refine ⟨"no products for quote", ?_⟩
      unfold generateQuote
      rw [if_pos (by rw [hf1, hfm])]

/-- Witness inputs for C9: two priced products, one without a price. -/
def quoteProductsC9 : List SupabaseMatch :=
  [⟨1, "Розетка | Цена: 1000", [("name", MetaVal.str "Розетка"), ("price", MetaVal.num 1000)], 0⟩,
   ⟨2, "товар без цены", [("name", MetaVal.str "товар без цены")], 0⟩,
   ⟨3, "Рамка", [("name", MetaVal.str "Рамка"), ("price", MetaVal.num 500)], 0⟩]

theorem c9_witness :
    generateQuote 0 quoteProductsC9
      = .ok ⟨"NF-1", 0, "Клиент", "",
          [⟨1, "Розетка", 1, 1000, 1000⟩, ⟨3, "Рамка", 1, 500, 500⟩], 0, 1500, 0, 1500⟩
    ∧ (⟨"NF-1", 0, "Клиент", "",
          [⟨1, "Розетка", 1, 1000, 1000⟩, ⟨3, "Рамка", 1, 500, 500⟩], 0, 1500, 0,
          1500⟩ : Quote).items
        = quoteProductsC9.filterMap quoteItemOf :=
  ⟨by decide,
   ((c9_quote_one_item_per_priced_product 0 quoteProductsC9).1
     ⟨"NF-1", 0, "Клиент", "",
       [⟨1, "Розетка", 1, 1000, 1000⟩, ⟨3, "Рамка", 1, 500, 500⟩], 0, 1500, 0, 1500⟩
     (by decide)).1⟩

/-- **C10.**  The effective match count always lies in `[1, 20]`:
non-positive requests become 5, requests above 20 are clamped to 20,
anything else passes through. -/
theorem c10_match_count_clamped (m : Int) :
    1 ≤ effectiveMatchCount m ∧ effectiveMatchCount m ≤ 20
    ∧ (m ≤ 0 → effectiveMatchCount m = 5)
    ∧ (20 < m → effectiveMatchCount m = 20)
    ∧ (0 < m → m ≤ 20 → effectiveMatchCount m = m) := by
  refine ⟨?_, ?_, fun h => ?_, fun h => ?_, fun h1 h2 => ?_⟩ <;>
    (unfold effectiveMatchCount; dsimp only; repeat' split) <;> omega

/-- Witness for C10 at concrete inputs. -/
theorem c10_witness :
    effectiveMatchCount 0 = 5 ∧ effectiveMatchCount 25 = 20 ∧ effectiveMatchCount 7 = 7 :=
  ⟨(c10_match_count_clamped 0).2.2.1 (by decide),
   (c10_match_count_clamped 25).2.2.2.1 (by decide),
   (c10_match_count_clamped 7).2.2.2.2 (by decide) (by decide)⟩

/-! ## Personalization ranker (site/personalization.go)

`RankProductsByBehavior` scores every candidate against the four trait
sets collected from the behavior profile and stable-sorts descending by
score.  The Go code pairs each product with its index and calls
`sort.SliceStable` with the comparator
`less i j = if s_i == s_j then idx_i < idx_j else s_i > s_j`;
since distinct indices make `(score desc, index asc)` a strict total
order, the (stable or not) sorted result is the unique permutation
sorted by that order, which is `mergeSort` under the reflexive closure
`le x y = s_x > s_y ∨ (s_x = s_y ∧ idx_x ≤ idx_y)`. -/

/-- `site.Product`. -/
structure SiteProduct where
  id : Int
  content : String
  metadata : List (String × MetaVal)
deriving Repr, DecidableEq

/-- `site.Behavior` (bounded lists of profile products). -/
structure Behavior where
  recentlyViewed : List SiteProduct
  favorites : List SiteProduct
  cart : List SiteProduct
  orders : List SiteProduct
deriving Repr, DecidableEq

/-- `toString(v)` on a metadata read: Go's `fmt` default formatting,
with a missing key reading as `nil` and printing `<nil>`. -/
def toStringMeta : Option MetaVal → String
  | none => "<nil>"
  | some (MetaVal.str s) => s
  | some (MetaVal.num n) => toString n
  | some (MetaVal.boolean b) => if b then "true" else "false"

/-- `strings.ToLower(strings.TrimSpace(toString(p.Metadata[key])))`. -/
def traitOf (p : SiteProduct) (key : String) : String :=
  goToLower (goTrim (toStringMeta (metaLookup p.metadata key)))

/-- `collectBehaviorTraits` for one key: non-empty lower-cased trait
values across all four profile lists (a list standing for the Go set —
only membership is ever queried). -/
def collectTraits (b : Behavior) (key : String) : List String :=
  (((b.recentlyViewed ++ b.favorites) ++ b.cart ++ b.orders).map
      (fun p => traitOf p key)).filter (fun v => !decide (v = ""))

/-- The score loop body of `RankProductsByBehavior` (lines 91–107):
+4 type, +3 brand, +2 color, +1 series, each guarded by
`v != "" && set[v]`. -/
def behaviorScore (b : Behavior) (p : SiteProduct) : Nat :=
  (if traitOf p "type" ≠ "" ∧ traitOf p "type" ∈ collectTraits b "type" then 4 else 0)
  + (if traitOf p "brand" ≠ "" ∧ traitOf p "brand" ∈ collectTraits b "brand" then 3 else 0)
  + (if traitOf p "color" ≠ "" ∧ traitOf p "color" ∈ collectTraits b "color" then 2 else 0)
  + (if traitOf p "series" ≠ "" ∧ traitOf p "series" ∈ collectTraits b "series" then 1 else 0)

/-- The reflexive closure of the `sort.SliceStable` comparator on
(index, product) pairs. -/
def rankLe (b : Behavior) (x y : Nat × SiteProduct) : Bool :=
  decide (behaviorScore b x.2 > behaviorScore b y.2
    ∨ (behaviorScore b x.2 = behaviorScore b y.2 ∧ x.1 ≤ y.1))

/-- The sorted, index-tagged candidate list. -/
def rankEnum (b : Behavior) (products : List SiteProduct) : List (Nat × SiteProduct) :=
  products.enum.mergeSort (rankLe b)

/-- `RankProductsByBehavior` (personalization.go lines 76–122). -/
def RankProductsByBehavior (products : List SiteProduct) (b? : Option Behavior) :
    List SiteProduct :=
  match b? with
  | none => products
  | some b =>
    if products = [] then products
    else if collectTraits b "type" = [] ∧ collectTraits b "brand" = []
        ∧ collectTraits b "color" = [] ∧ collectTraits b "series" = [] then products
    else (rankEnum b products).map Prod.snd

/-- The comparator is transitive. -/
theorem rankLe_trans (b : Behavior) : ∀ x y z : Nat × SiteProduct,
    rankLe b x y → rankLe b y z → rankLe b x z := by
  intro x y z hxy hyz
  simp only [rankLe, decide_eq_true_eq] at *
  omega

/-- The comparator is total. -/
theorem rankLe_total (b : Behavior) : ∀ x y : Nat × SiteProduct,
    rankLe b x y || rankLe b y x := by
  intro x y
  simp only [rankLe, Bool.or_eq_true, decide_eq_true_eq]
  omega

/-- The sorted enum carries pairwise-distinct original indices. -/
theorem rankEnum_indices_distinct (b : Behavior) (products : List SiteProduct) :
    (rankEnum b products).Pairwise (fun x y => x.1 ≠ y.1) := by
  have hperm : (rankEnum b products).Perm products.enum := List.mergeSort_perm _ _
  have henum : products.enum.Pairwise (fun x y => x.1 ≠ y.1) := by
    have hmap : products.enum.map Prod.fst = List.range' 0 products.length :=
      List.enumFrom_map_fst 0 products
    have hnd : (products.enum.map Prod.fst).Nodup := by
      rw [hmap]
      exact List.nodup_range' 0 products.length
    exact List.pairwise_map.mp hnd
  exact (List.Perm.pairwise_iff (fun {x y} h => h ∘ Eq.symm) hperm).mpr henum

/-- **C8.**  The ranker's output is a permutation of its input; the
sorted index-tagged list is pairwise ordered by strictly-descending
score with ties in strictly-ascending original position (so a product
with a strictly higher score never appears after one with a strictly
lower score, and equal scores keep the original retrieval order); and
whenever the profile supplies any trait (and the input is non-empty),
the output is exactly that stable ordering. -/
theorem c8_rank_products_stable_sort (products : List SiteProduct) (b : Behavior) :
    List.Perm (RankProductsByBehavior products (some b)) products
    ∧ (rankEnum b products).Pairwise (fun x y =>
        behaviorScore b x.2 > behaviorScore b y.2
        ∨ (behaviorScore b x.2 = behaviorScore b y.2 ∧ x.1 < y.1))
    ∧ (¬ (collectTraits b "type" = [] ∧ collectTraits b "brand" = []
          ∧ collectTraits b "color" = [] ∧ collectTraits b "series" = []) →
        products ≠ [] →
        RankProductsByBehavior products (some b) = (rankEnum b products).map Prod.snd) := by
  have hsnd : products.enum.map Prod.snd = products := List.enumFrom_map_snd 0 products
  have hperm : ((rankEnum b products).map Prod.snd).Perm products := by
    have h1 : (rankEnum b products).Perm products.enum := List.mergeSort_perm _ _
    have h2 := h1.map Prod.snd
    rwa [hsnd] at h2
  refine ⟨?_, ?_, ?_⟩
  · unfold RankProductsByBehavior
    dsimp only
    repeat' split
    all_goals first | exact hperm | exact List.Perm.refl _
  · have hsorted : (rankEnum b products).Pairwise (fun x y => rankLe b x y) :=
      List.sorted_mergeSort (rankLe_trans b) (rankLe_total b) products.enum
    have hdist := rankEnum_indices_distinct b products
    refine (hsorted.and hdist).imp ?_
    intro x y hxy
    obtain ⟨hle, hne⟩ := hxy
    simp only [rankLe, decide_eq_true_eq] at hle
    omega
  · intro htraits hne
    unfold RankProductsByBehavior
    dsimp only
    rw [if_neg hne, if_neg htraits]

/-- Witness profile and candidates for C8: the cart marks the "розетка"
type and "legrand" brand as traits; two candidates share those traits. -/
def behaviorC8 : Behavior :=
  ⟨[], [],
   [⟨100, "Розетка Legrand", [("type", MetaVal.str "Розетка"), ("brand", MetaVal.str "Legrand")]⟩],
   []⟩

def productsC8 : List SiteProduct :=
  [⟨1, "Рамка", [("type", MetaVal.str "рамка")]⟩,
   ⟨2, "Розетка белая", [("type", MetaVal.str "розетка"), ("brand", MetaVal.str "legrand")]⟩,
   ⟨3, "Розетка серая", [("type", MetaVal.str "розетка")]⟩]

theorem c8_witness :
    List.Perm (RankProductsByBehavior productsC8 (some behaviorC8)) productsC8
    ∧ RankProductsByBehavior productsC8 (some behaviorC8)
        = (rankEnum behaviorC8 productsC8).map Prod.snd :=
  ⟨(c8_rank_products_stable_sort productsC8 behaviorC8).1,
   (c8_rank_products_stable_sort productsC8 behaviorC8).2.2 (by decide) (by decide)⟩

end LxorGo
